import Mathlib

/-!
Verification of `cmd/k8spkgctl/build.go`, a build-orchestration utility that
generates Debian packages for Kubernetes components across a matrix of
architectures, distributions and release channels.

The embedding below translates the Go source into Lean:
  * the static data (channels, dependency strings, the build matrices of
    `main`) become plain definitions;
  * the function-valued `GetVersion` / `GetDownloadLinkBase` fields of the
    `version` struct become named resolver identifiers interpreted by an
    environment `Env`; the network is an oracle `Net : String → Except Err
    String` mapping a URL to the fetched body (or a failure);
  * the effectful parts (`walkBuilds`, `cfg.run`) become functions that
    return an `Except Err` result together with an explicit trace of the
    externally visible actions they performed, so that statements such as
    "the resolver is invoked once" or "no file is moved" can be expressed
    as facts about the trace.
-/

/-! ## Basic data (build.go lines 20-31, 76-108) -/

/-- `ChannelType` is a string type in Go with exactly the three constants
below; we embed it as the enumeration of those constants. -/
inductive ChannelType
  | stable
  | unstable
  | nightly
deriving DecidableEq, Repr

/-- The underlying string of a `ChannelType` value (used by `string(c.Channel)`). -/
def channelString : ChannelType → String
  | .stable => "stable"
  | .unstable => "unstable"
  | .nightly => "nightly"

def minimumKubernetesVersion : String := "1.12.0-alpha.0"

def minimumStableKubernetesVersion : String := "1.12.0"

def minimumCNIVersion : String := "0.7.5"

/-- Error kinds of the run (spec section 7): network, version-parse,
template (missing configuration field), filesystem and subprocess. -/
inductive Err
  | net (msg : String)
  | parse (msg : String)
  | template (field : String)
  | io (msg : String)
  | proc (msg : String)
deriving DecidableEq, Repr

deriving instance DecidableEq for Except

/-- `KubeadmDependencies` (build.go:95-102): `strings.Join` of the dependency
list with `","`. -/
def KubeadmDependencies : String :=
  String.intercalate ","
    [ "kubelet (>= " ++ minimumStableKubernetesVersion ++ ")"
    , "kubectl (>= " ++ minimumStableKubernetesVersion ++ ")"
    , "kubernetes-cni (>= " ++ minimumCNIVersion ++ ")"
    , "cri-tools (>= " ++ minimumStableKubernetesVersion ++ ")"
    , "$\x7bmisc:Depends\x7d" ]

/-- `KubeletDependencies` (build.go:104-107). -/
def KubeletDependencies : String :=
  String.intercalate ","
    [ "kubernetes-cni (>= " ++ minimumCNIVersion ++ ")" ]

/-! ## Version resolvers (build.go lines 256-323)

The Go code stores functions in the `GetVersion` / `GetDownloadLinkBase`
fields.  We name the five version resolvers and the two download-link-base
resolvers that occur in the program and interpret them in `mkEnv` by the
translated resolver bodies, over a network oracle. -/

/-- The network oracle: `http.Get` + `ioutil.ReadAll` of the body, as one
step; a failure of either is the `.error` case. -/
abbrev Net := String → Except Err String

/-- One step of `strings.Replace(s, old, new, 1)` over the character list,
for the single-character `old` patterns used by the program ("v", "\n",
"+"): replace the first occurrence of `target` with nothing. -/
def goDropFirstChar : List Char → Char → List Char
  | [], _ => []
  | c :: cs, target => if c = target then cs else goDropFirstChar cs target |> (c :: ·)

/-- `strings.Replace(s, old, new, 1)` for single-character `old` and `new`
(used for the "+" to "-" substitution in `getKubeCIVersion`). -/
def goSubstFirstChar : List Char → Char → Char → List Char
  | [], _, _ => []
  | c :: cs, target, repl =>
    if c = target then repl :: cs else goSubstFirstChar cs target repl |> (c :: ·)

def stripFirst (s : String) (c : Char) : String := ⟨goDropFirstChar s.toList c⟩

def substFirst (s : String) (old new : Char) : String := ⟨goSubstFirstChar s.toList old new⟩

/-- The cleaning step of `fetchVersionFromURL` (build.go:268):
`strings.Replace(strings.Replace(string(versionBytes), "v", "", 1), "\n", "", 1)`,
i.e. remove the first occurrence of "v", then the first occurrence of "\n". -/
def cleanFetchedVersion (s : String) : String := stripFirst (stripFirst s 'v') '\n'

/-- `fetchVersionFromURL` (build.go:256-269). -/
def fetchVersionFromURL (net : Net) (url : String) : Except Err String := do
  let body ← net url
  pure (cleanFetchedVersion body)

def stableVersionURL : String := "https://dl.k8s.io/release/stable.txt"

def latestVersionURL : String := "https://dl.k8s.io/release/latest.txt"

def ciVersionURL : String := "https://dl.k8s.io/ci-cross/latest.txt"

/-- `getStableKubeVersion` (build.go:271-273). -/
def getStableKubeVersion (net : Net) : Except Err String :=
  fetchVersionFromURL net stableVersionURL

/-- `getLatestKubeVersion` (build.go:275-277). -/
def getLatestKubeVersion (net : Net) : Except Err String :=
  fetchVersionFromURL net latestVersionURL

/-- `getLatestKubeCIBuild` (build.go:308-310). -/
def getLatestKubeCIBuild (net : Net) : Except Err String :=
  fetchVersionFromURL net ciVersionURL

/-- `getKubeCIVersion` (build.go:279-287): the latest CI build with the
first "+" replaced by "-". -/
def getKubeCIVersion (net : Net) : Except Err String := do
  let latestVersion ← getLatestKubeCIBuild net
  pure (substFirst latestVersion '+' '-')

/-- A parsed semantic version (the fields of `blang/semver.Version` the
program reads: major and minor; patch kept for completeness). -/
structure Semver where
  major : Nat
  minor : Nat
  patch : Nat
deriving DecidableEq, Repr

/-- One numeric component of a semantic version: digits only, no leading
zeros (as validated by `blang/semver.Parse`). -/
def parseSemverNum (s : String) : Option Nat :=
  if s.length > 1 && s.front == '0' then none else s.toNat?

/-- `semver.Parse` from the external `blang/semver` library, at the
granularity the program needs: the dotted MAJOR.MINOR.PATCH core (any
pre-release / build-metadata suffix starts at the first '-' or '+';
validation of those suffixes is not exercised by the program's use). -/
def semverParse (s : String) : Except Err Semver :=
  let core := s.takeWhile (fun ch => !(ch == '-' || ch == '+'))
  match (core.splitOn ".").map parseSemverNum with
  | [some a, some b, some c] => .ok ⟨a, b, c⟩
  | _ => .error (.parse s)

/-- `getCRIToolsLatestVersion` (build.go:289-306): fetch the stable
Kubernetes version, parse it as semver, reassemble `<major>.<minor>.0`. -/
def getCRIToolsLatestVersion (net : Net) : Except Err String := do
  let kv ← getStableKubeVersion net
  let kubeSemver ← semverParse kv
  pure (toString kubeSemver.major ++ "." ++ toString kubeSemver.minor ++ ".0")

/-- Identifiers for the version-resolver functions stored in `GetVersion`
fields.  `.specified kv` is the `getSpecifiedVersion` closure of `main`
(build.go:446-448), which captures the pinned version string. -/
inductive ResolverId
  | stableKube
  | latestKube
  | kubeCI
  | criToolsLatest
  | specified (kv : String)
deriving DecidableEq, Repr

/-- Identifiers for the download-link-base resolver functions stored in
`GetDownloadLinkBase` fields. -/
inductive LinkResolverId
  | release
  | ciBuilds
deriving DecidableEq, Repr

/-! ## The version / build / cfg structs (build.go lines 40-62) -/

/-- The `version` struct.  The function-typed fields hold resolver
identifiers (or `none` for Go's `nil`), interpreted by an `Env`. -/
structure version where
  Version : String := ""
  Revision : String := ""
  DownloadLinkBase : String := ""
  Channel : ChannelType
  GetVersion : Option ResolverId := none
  GetDownloadLinkBase : Option LinkResolverId := none
deriving DecidableEq, Repr

/-- The `build` struct. -/
structure build where
  Package : String
  Distros : List String
  Versions : List version
deriving DecidableEq, Repr

/-- The `cfg` struct.  Go embeds `version` in `cfg`; the embedding is
flattened into the individual fields here. -/
structure cfg where
  Version : String := ""
  Revision : String := ""
  DownloadLinkBase : String := ""
  Channel : ChannelType
  GetVersion : Option ResolverId := none
  GetDownloadLinkBase : Option LinkResolverId := none
  DistroName : String
  Arch : String
  DebArch : String := ""
  Package : String
  Dependencies : String := ""
deriving DecidableEq, Repr

/-- The architecture-name mapping of `main` (build.go:518-524): the deb
architecture for a build architecture. -/
def debArch (arch : String) : String :=
  if arch == "arm" then "armhf"
  else if arch == "ppc64le" then "ppc64el"
  else arch

/-- The body of the callback `main` passes to `walkBuilds`
(build.go:511-531), up to the call of `c.run()`: build the job's `cfg`.
The `Dependencies` field is assigned `KubeadmDependencies` unconditionally
(build.go:527). -/
def mkCfg (pkg distro arch : String) (v : version) : cfg :=
  { Version := v.Version
  , Revision := v.Revision
  , DownloadLinkBase := v.DownloadLinkBase
  , Channel := v.Channel
  , GetVersion := v.GetVersion
  , GetDownloadLinkBase := v.GetDownloadLinkBase
  , DistroName := distro
  , Arch := arch
  , DebArch := debArch arch
  , Package := pkg
  , Dependencies := KubeadmDependencies }

/-- The interpretation environment for the resolver identifiers. -/
structure Env where
  resolveVersion : ResolverId → Except Err String
  resolveLink : LinkResolverId → version → Except Err String

/-- `getReleaseDownloadLinkBase` (build.go:321-323); `rdlb` is the
`releaseDownloadLinkBase` flag value (default "https://dl.k8s.io"). -/
def getReleaseDownloadLinkBase (rdlb : String) (v : version) : Except Err String :=
  pure (rdlb ++ "/v" ++ v.Version)

/-- `getCIBuildsDownloadLinkBase` (build.go:312-319); ignores its version
argument. -/
def getCIBuildsDownloadLinkBase (net : Net) (_v : version) : Except Err String := do
  let latestCiVersion ← getLatestKubeCIBuild net
  pure ("https://dl.k8s.io/ci-cross/v" ++ latestCiVersion)

/-- The interpretation of the resolver identifiers by the translated
resolver bodies, over a network oracle and the release download link base
flag. -/
def mkEnv (net : Net) (rdlb : String) : Env where
  resolveVersion
    | .stableKube => getStableKubeVersion net
    | .latestKube => getLatestKubeVersion net
    | .kubeCI => getKubeCIVersion net
    | .criToolsLatest => getCRIToolsLatestVersion net
    | .specified kv => pure kv
  resolveLink
    | .release, v => getReleaseDownloadLinkBase rdlb v
    | .ciBuilds, v => getCIBuildsDownloadLinkBase net v

/-! ## The build matrices of `main` (build.go lines 328-509) -/

/-- The default build matrix (build.go:328-443).  `rev` is the `revision`
flag, `ds` the `distros` flag. -/
def buildsDefault (rev : String) (ds : List String) : List build :=
  [ { Package := "kubectl"
    , Distros := ds
    , Versions :=
      [ { GetVersion := some .stableKube, Revision := rev, Channel := .stable
        , GetDownloadLinkBase := some .release }
      , { GetVersion := some .latestKube, Revision := rev, Channel := .unstable
        , GetDownloadLinkBase := some .release }
      , { GetVersion := some .kubeCI, Revision := rev, Channel := .nightly
        , GetDownloadLinkBase := some .ciBuilds } ] }
  , { Package := "kubelet"
    , Distros := ds
    , Versions :=
      [ { GetVersion := some .stableKube, Revision := rev, Channel := .stable
        , GetDownloadLinkBase := some .release }
      , { GetVersion := some .latestKube, Revision := rev, Channel := .unstable
        , GetDownloadLinkBase := some .release }
      , { GetVersion := some .kubeCI, Revision := rev, Channel := .nightly
        , GetDownloadLinkBase := some .ciBuilds } ] }
  , { Package := "kubernetes-cni"
    , Distros := ds
    , Versions :=
      [ { Version := minimumCNIVersion, Revision := rev, Channel := .stable }
      , { Version := minimumCNIVersion, Revision := rev, Channel := .unstable }
      , { Version := minimumCNIVersion, Revision := rev, Channel := .nightly } ] }
  , { Package := "kubeadm"
    , Distros := ds
    , Versions :=
      [ { GetVersion := some .stableKube, Revision := rev, Channel := .stable
        , GetDownloadLinkBase := some .release }
      , { GetVersion := some .latestKube, Revision := rev, Channel := .unstable
        , GetDownloadLinkBase := some .release }
      , { GetVersion := some .kubeCI, Revision := rev, Channel := .nightly
        , GetDownloadLinkBase := some .ciBuilds } ] }
  , { Package := "cri-tools"
    , Distros := ds
    , Versions :=
      [ { GetVersion := some .criToolsLatest, Revision := rev, Channel := .stable }
      , { GetVersion := some .criToolsLatest, Revision := rev, Channel := .unstable }
      , { GetVersion := some .criToolsLatest, Revision := rev, Channel := .nightly } ] } ]

/-- The replacement build matrix used when a `-kube-version` pin is given
(build.go:449-508).  `.specified kv` stands for the `getSpecifiedVersion`
closure returning the pinned version. -/
def buildsPinned (kv rev : String) (ds : List String) : List build :=
  [ { Package := "kubectl"
    , Distros := ds
    , Versions :=
      [ { GetVersion := some (.specified kv), Revision := rev, Channel := .stable
        , GetDownloadLinkBase := some .release } ] }
  , { Package := "kubelet"
    , Distros := ds
    , Versions :=
      [ { GetVersion := some (.specified kv), Revision := rev, Channel := .stable
        , GetDownloadLinkBase := some .release } ] }
  , { Package := "kubernetes-cni"
    , Distros := ds
    , Versions :=
      [ { Version := minimumCNIVersion, Revision := rev, Channel := .stable } ] }
  , { Package := "kubeadm"
    , Distros := ds
    , Versions :=
      [ { GetVersion := some (.specified kv), Revision := rev, Channel := .stable
        , GetDownloadLinkBase := some .release } ] }
  , { Package := "cri-tools"
    , Distros := ds
    , Versions :=
      [ { GetVersion := some .criToolsLatest, Revision := rev, Channel := .stable } ] } ]

/-- The build matrix `main` hands to `walkBuilds`: the default matrix,
replaced by the pinned matrix when the `-kube-version` flag is non-empty
(build.go:445, 449). -/
def mainBuilds (kubeVersion rev : String) (ds : List String) : List build :=
  if kubeVersion = "" then buildsDefault rev ds else buildsPinned kubeVersion rev ds

/-! ## The walker `walkBuilds` (build.go lines 223-254)

The walker is a quadruple nested loop: architectures (outermost) over
builds over distros over version specs.  Each innermost iteration
populates `v.Version` and `v.DownloadLinkBase` (on the local copy `v`)
when they are empty and a resolver is attached, then invokes the
callback.  Any error returns immediately.  The translation threads an
explicit event trace recording every resolver invocation and every
callback invocation. -/

/-- The job callback type: `func(pkg, distro, arch string, v version) error`. -/
abbrev Callback := String → String → String → version → Except Err Unit

/-- Observable events of a walk: a version-resolver call, a
download-link-base-resolver call (with the version value it was handed),
and a callback invocation (with the resolved version value). -/
inductive Event
  | resolveVersion (r : ResolverId)
  | resolveLink (l : LinkResolverId) (v : version)
  | callback (pkg distro arch : String) (v : version)
deriving DecidableEq, Repr

/-- build.go:228-235: `if len(v.Version) == 0 && v.GetVersion != nil`,
populate `v.Version` from the resolver. -/
def populateVersion (env : Env) (v : version) : Except Err version × List Event :=
  match v.Version.length == 0, v.GetVersion with
  | true, some r =>
    match env.resolveVersion r with
    | .error e => (.error e, [.resolveVersion r])
    | .ok s => (.ok { v with Version := s }, [.resolveVersion r])
  | _, _ => (.ok v, [])

/-- build.go:237-244: `if len(v.DownloadLinkBase) == 0 && v.GetDownloadLinkBase != nil`,
populate `v.DownloadLinkBase` from the resolver (which receives `v`). -/
def populateLink (env : Env) (v : version) : Except Err version × List Event :=
  match v.DownloadLinkBase.length == 0, v.GetDownloadLinkBase with
  | true, some l =>
    match env.resolveLink l v with
    | .error e => (.error e, [.resolveLink l v])
    | .ok s => (.ok { v with DownloadLinkBase := s }, [.resolveLink l v])
  | _, _ => (.ok v, [])

/-- One (package, distro, arch, version-spec) combination of the walk. -/
structure Combo where
  pkg : String
  distro : String
  arch : String
  ver : version
deriving DecidableEq, Repr

/-- The body of the innermost loop of `walkBuilds` (build.go:228-248) for
one combination: populate the version, populate the download link base,
invoke the callback; stop at the first error. -/
def stepCombo (env : Env) (f : Callback) (c : Combo) : Except Err Unit × List Event :=
  match populateVersion env c.ver with
  | (.error e, t1) => (.error e, t1)
  | (.ok v1, t1) =>
    match populateLink env v1 with
    | (.error e, t2) => (.error e, t1 ++ t2)
    | (.ok v2, t2) =>
      match f c.pkg c.distro c.arch v2 with
      | .error e => (.error e, t1 ++ t2 ++ [.callback c.pkg c.distro c.arch v2])
      | .ok _ => (.ok (), t1 ++ t2 ++ [.callback c.pkg c.distro c.arch v2])

/-- The innermost loop of `walkBuilds`: `for _, v := range b.Versions`. -/
def walkVersions (env : Env) (f : Callback) (pkg d a : String) :
    List version → Except Err Unit × List Event
  | [] => (.ok (), [])
  | v :: vs =>
    match stepCombo env f ⟨pkg, d, a, v⟩ with
    | (.error e, t) => (.error e, t)
    | (.ok _, t) =>
      match walkVersions env f pkg d a vs with
      | (r, t2) => (r, t ++ t2)

/-- The distro loop of `walkBuilds`: `for _, d := range b.Distros`. -/
def walkDistros (env : Env) (f : Callback) (pkg a : String) (vers : List version) :
    List String → Except Err Unit × List Event
  | [] => (.ok (), [])
  | d :: ds =>
    match walkVersions env f pkg d a vers with
    | (.error e, t) => (.error e, t)
    | (.ok _, t) =>
      match walkDistros env f pkg a vers ds with
      | (r, t2) => (r, t ++ t2)

/-- The build loop of `walkBuilds`: `for _, b := range builds`. -/
def walkBuildList (env : Env) (f : Callback) (a : String) :
    List build → Except Err Unit × List Event
  | [] => (.ok (), [])
  | b :: bs =>
    match walkDistros env f b.Package a b.Versions b.Distros with
    | (.error e, t) => (.error e, t)
    | (.ok _, t) =>
      match walkBuildList env f a bs with
      | (r, t2) => (r, t ++ t2)

/-- The architecture loop of `walkBuilds`: `for _, a := range architectures`. -/
def walkArchs (env : Env) (f : Callback) (builds : List build) :
    List String → Except Err Unit × List Event
  | [] => (.ok (), [])
  | a :: rest =>
    match walkBuildList env f a builds with
    | (.error e, t) => (.error e, t)
    | (.ok _, t) =>
      match walkArchs env f builds rest with
      | (r, t2) => (r, t ++ t2)

/-- `walkBuilds` (build.go:223-254), with the global `architectures` flag
made an explicit parameter `archs`. -/
def walkBuilds (env : Env) (archs : List String) (builds : List build) (f : Callback) :
    Except Err Unit × List Event :=
  walkArchs env f builds archs

/-! ## `cfg.run`: template rendering, packaging, artifact placement
(build.go lines 131-221)

The filesystem, subprocesses and the template files are modelled by a
`World` of oracles.  `run` returns the `Except` result together with the
trace of external actions it performed, in order. -/

/-- A node of a parsed template: literal text, a reference to a field of
the configuration (`.Name`), or the `date` builtin (build.go:87-91). -/
inductive TmplNode
  | text (s : String)
  | field (name : String)
  | builtinDate
deriving DecidableEq, Repr

/-- One unit of render work (the `work` struct, build.go:33-38): source
path, destination path, parsed template, and the source file mode. -/
structure Work where
  src : String
  dst : String
  tmpl : List TmplNode
  mode : Nat
deriving DecidableEq, Repr

/-- Field lookup on `cfg` by template name: the renderable fields of the
Go struct (the embedded `version` fields and the `cfg` fields).  Any other
name is absent (`none`), which `text/template` reports as an execution
error (the parse uses `Option("missingkey=error")`, and a missing struct
field always fails). -/
def cfgField (c : cfg) : String → Option String
  | "Version" => some c.Version
  | "Revision" => some c.Revision
  | "DownloadLinkBase" => some c.DownloadLinkBase
  | "Channel" => some (channelString c.Channel)
  | "DistroName" => some c.DistroName
  | "Arch" => some c.Arch
  | "DebArch" => some c.DebArch
  | "Package" => some c.Package
  | "Dependencies" => some c.Dependencies
  | _ => none

/-- `w.t.Execute(f, c)` (build.go:192): render the template against the
configuration; a reference to an absent field fails with a template
error.  `date` is the value of the `date` builtin. -/
def execute (date : String) (c : cfg) : List TmplNode → Except Err String
  | [] => pure ""
  | .text s :: ns => (execute date c ns).map (s ++ ·)
  | .field nm :: ns =>
    match cfgField c nm with
    | none => .error (.template nm)
    | some val => (execute date c ns).map (val ++ ·)
  | .builtinDate :: ns => (execute date c ns).map (date ++ ·)

/-- `true` exactly on the template-error results of a render. -/
def isTemplateError : Except Err String → Bool
  | .error (.template _) => true
  | _ => false

/-- Externally visible actions of `cfg.run`, in program order. -/
inductive RunAction
  | tempDir
  | removeAll (dir : String)
  | evalSymlinks (path : String)
  | walk (dir : String)
  | openFile (path : String)
  | render (path : String)
  | chmod (path : String) (mode : Nat)
  | runCmd (pwd cmd : String) (args : List String)
  | mkdirAll (path : String)
deriving DecidableEq, Repr

/-- The world `cfg.run` acts on: the `date` builtin's value and the
outcomes of the filesystem / subprocess operations. `walkCollect src dst`
abstracts the `filepath.Walk` phase (build.go:151-181): it mirrors the
directory tree of `src` under `dst` and returns the parsed template work
list, or the first error (including template parse errors). -/
structure World where
  date : String
  tempDir : Except Err String
  evalSymlinks : String → Except Err String
  walkCollect : String → String → Except Err (List Work)
  openFile : String → Except Err Unit
  chmod : String → Nat → Except Err Unit
  runCommand : String → String → List String → Except Err Unit
  mkdirAll : String → Except Err Unit

/-- `filepath.Join(c.DistroName, c.Package)` (build.go:135), on the two
non-empty clean segments the program uses. -/
def srcdirOf (c : cfg) : String := c.DistroName ++ "/" ++ c.Package

/-- The arguments of the `dpkg-buildpackage` invocation (build.go:204). -/
def dpkgArgs (c : cfg) : List String := ["-us", "-uc", "-b", "-a" ++ c.DebArch]

/-- The artifact file name (build.go:214):
`fmt.Sprintf("%s_%s-%s_%s.deb", c.Package, c.Version, c.Revision, c.DebArch)`. -/
def debFileName (c : cfg) : String :=
  c.Package ++ "_" ++ c.Version ++ "-" ++ c.Revision ++ "_" ++ c.DebArch ++ ".deb"

/-- `filepath.Join("bin", string(c.Channel), c.DistroName)` (build.go:209-211). -/
def binPath (c : cfg) : String := "bin/" ++ channelString c.Channel ++ "/" ++ c.DistroName

/-- The render loop of `cfg.run` (build.go:183-202): for each work item
open the destination file, execute the template against `c`, and restore
the source file mode; stop at the first error. -/
def renderLoop (w : World) (c : cfg) : List Work → Except Err Unit × List RunAction
  | [] => (.ok (), [])
  | wk :: rest =>
    match w.openFile wk.dst with
    | .error e => (.error e, [.openFile wk.dst])
    | .ok _ =>
      match execute w.date c wk.tmpl with
      | .error e => (.error e, [.openFile wk.dst, .render wk.dst])
      | .ok _ =>
        match w.chmod wk.dst wk.mode with
        | .error e => (.error e, [.openFile wk.dst, .render wk.dst, .chmod wk.dst wk.mode])
        | .ok _ =>
          match renderLoop w c rest with
          | (r, t) => (r, .openFile wk.dst :: .render wk.dst :: .chmod wk.dst wk.mode :: t)

/-- The body of `cfg.run` after the temporary directory exists
(build.go:146-220): resolve the source dir symlink, walk it collecting
the template work list, render every file, run `dpkg-buildpackage`, make
the output directory (the Go code discards the error of this call,
build.go:212), and `mv` the artifact into it. -/
def runBody (w : World) (c : cfg) (dstdir : String) : Except Err Unit × List RunAction :=
  match w.evalSymlinks (srcdirOf c) with
  | .error e => (.error e, [.evalSymlinks (srcdirOf c)])
  | .ok realSrcdir =>
    match w.walkCollect realSrcdir dstdir with
    | .error e => (.error e, [.evalSymlinks (srcdirOf c), .walk realSrcdir])
    | .ok works =>
      match renderLoop w c works with
      | (.error e, t) =>
        (.error e, .evalSymlinks (srcdirOf c) :: .walk realSrcdir :: t)
      | (.ok _, t) =>
        let pre := .evalSymlinks (srcdirOf c) :: .walk realSrcdir :: t
        match w.runCommand dstdir "dpkg-buildpackage" (dpkgArgs c) with
        | .error e =>
          (.error e, pre ++ [.runCmd dstdir "dpkg-buildpackage" (dpkgArgs c)])
        | .ok _ =>
          -- os.MkdirAll(dstPath, 0777): the returned error is discarded
          -- by the source (build.go:212); the attempt is still recorded.
          let _ := w.mkdirAll (binPath c)
          let pre2 := pre ++ [.runCmd dstdir "dpkg-buildpackage" (dpkgArgs c),
                              .mkdirAll (binPath c)]
          match w.runCommand "" "mv" ["/tmp/" ++ debFileName c, binPath c] with
          | .error e =>
            (.error e, pre2 ++ [.runCmd "" "mv" ["/tmp/" ++ debFileName c, binPath c]])
          | .ok _ =>
            (.ok (), pre2 ++ [.runCmd "" "mv" ["/tmp/" ++ debFileName c, binPath c]])

/-- `cfg.run` (build.go:131-221).  `keepTmp` is the `-keep-tmp` flag; when
it is unset the deferred `os.RemoveAll(dstdir)` runs at function exit on
every path after the temporary directory was created. -/
def run (w : World) (keepTmp : Bool) (c : cfg) : Except Err Unit × List RunAction :=
  match w.tempDir with
  | .error e => (.error e, [.tempDir])
  | .ok dstdir =>
    match runBody w c dstdir with
    | (r, t) =>
      if keepTmp then (r, .tempDir :: t)
      else (r, .tempDir :: (t ++ [.removeAll dstdir]))

/-- `true` exactly on invocations of the external `mv` utility (the
artifact move, build.go:215). -/
def isMv : RunAction → Bool
  | .runCmd _ "mv" _ => true
  | _ => false

/-! ## Flattened view of the walk

The four nested loops of `walkBuilds` visit a statically determined
sequence of combinations.  `flatten` lists that sequence, and `runAll`
processes a combination list the way the loops do; the two presentations
are proved equal below, which lets the walker theorems work on a single
flat list. -/

/-- The sequence of (package, distro, arch, version-spec) combinations the
four loops of `walkBuilds` iterate, in iteration order: architectures
outermost, then builds, then distros, then version specs. -/
def flatten (archs : List String) (builds : List build) : List Combo :=
  archs.flatMap fun a => builds.flatMap fun b =>
    b.Distros.flatMap fun d => b.Versions.map fun v => ⟨b.Package, d, a, v⟩

/-- Process a flat combination list the way the walker loops do: stop at
the first error, concatenate the event traces. -/
def runAll (env : Env) (f : Callback) : List Combo → Except Err Unit × List Event
  | [] => (.ok (), [])
  | c :: cs =>
    match stepCombo env f c with
    | (.error e, t) => (.error e, t)
    | (.ok _, t) =>
      match runAll env f cs with
      | (r, t2) => (r, t ++ t2)

/-- Does this version spec still need its version resolved when the walker
consumes it (build.go:229)? -/
def needsVersion (v : version) : Bool := v.Version.length == 0 && v.GetVersion.isSome

/-- Does this version spec still need its download link base resolved when
the walker consumes it (build.go:238)?  (`populateVersion` does not touch
the `DownloadLinkBase` or `GetDownloadLinkBase` fields, so the condition
on the original spec is the condition the walker tests.) -/
def needsLink (v : version) : Bool :=
  v.DownloadLinkBase.length == 0 && v.GetDownloadLinkBase.isSome

/-- Number of version-resolver invocations recorded in a trace. -/
def countVersionEvents (t : List Event) : Nat :=
  (t.filter fun ev => match ev with | .resolveVersion _ => true | _ => false).length

/-- Number of download-link-base-resolver invocations recorded in a trace. -/
def countLinkEvents (t : List Event) : Nat :=
  (t.filter fun ev => match ev with | .resolveLink _ _ => true | _ => false).length

/-! ## Concrete instances used by the witnesses and counterexamples -/

/-- A callback that accepts every job. -/
def cbOk : Callback := fun _ _ _ _ => .ok ()

/-- An environment in which every resolution succeeds with fixed values. -/
def envOk : Env where
  resolveVersion := fun _ => .ok "1.20.0"
  resolveLink := fun _ _ => .ok "https://dl.k8s.io/v1.20.0"

/-- An environment in which the stable-version resolver fails and
everything else succeeds. -/
def envStableFails : Env where
  resolveVersion := fun r =>
    match r with
    | .stableKube => .error (.net "Get stable.txt: connection refused")
    | _ => .ok "1.20.0"
  resolveLink := fun _ _ => .ok "https://dl.k8s.io/v1.20.0"

/-- A version spec that needs both the version and the link base resolved,
on the stable channel (the shape of the stable `kubectl` spec of the
default matrix). -/
def specStable : version :=
  { GetVersion := some .stableKube, Revision := "00", Channel := .stable
  , GetDownloadLinkBase := some .release }

/-- A literal version spec needing no resolution. -/
def specLiteral : version :=
  { Version := minimumCNIVersion, Revision := "00", Channel := .stable }

/-- A one-package build with two distros, used to show that the same spec
is re-resolved for every job built from it. -/
def buildTwoDistros : build :=
  { Package := "kubectl", Distros := ["bionic", "xenial"], Versions := [specStable] }

/-- A one-package, one-distro build whose version list is: a literal spec,
then a spec whose resolver fails, then another literal spec. -/
def buildMidFailure : build :=
  { Package := "kubectl", Distros := ["bionic"]
  , Versions := [specLiteral, specStable, specLiteral] }

/-- The combination the walker processes first for `buildMidFailure`. -/
def comboFirst : Combo := ⟨"kubectl", "bionic", "amd64", specLiteral⟩

/-- The combination of `buildMidFailure` whose resolution fails under
`envStableFails`. -/
def comboFailing : Combo := ⟨"kubectl", "bionic", "amd64", specStable⟩

/-- A configuration for a concrete stable kubectl job. -/
def cfgJob : cfg :=
  mkCfg "kubectl" "bionic" "amd64"
    { Version := "1.20.0", Revision := "00"
    , DownloadLinkBase := "https://dl.k8s.io/v1.20.0", Channel := .stable }

/-- A world in which every operation succeeds. -/
def worldOk : World where
  date := "Mon, 01 Jan 2024 00:00:00 +0000"
  tempDir := .ok "/tmp/debs123"
  evalSymlinks := fun p => .ok p
  walkCollect := fun _ _ => .ok []
  openFile := fun _ => .ok ()
  chmod := fun _ _ => .ok ()
  runCommand := fun _ _ _ => .ok ()
  mkdirAll := fun _ => .ok ()

/-- A world in which creating the output directory fails and every other
operation succeeds. -/
def worldMkdirFails : World :=
  { worldOk with mkdirAll := fun _ => .error (.io "mkdir bin: permission denied") }

/-- A world in which the packaging subprocess fails and every other
operation succeeds. -/
def worldDpkgFails : World :=
  { worldOk with
    runCommand := fun _ cmd _ =>
      if cmd == "dpkg-buildpackage" then .error (.proc "exit status 1") else .ok () }

/-- A network oracle that always fails (the machine is offline). -/
def netOffline : Net := fun _ => .error (.net "connection refused")

/-- A configuration for the template-rendering theorems. -/
def cfgTemplate : cfg :=
  mkCfg "kubeadm" "bionic" "amd64"
    { Version := "1.20.0", Revision := "00"
    , DownloadLinkBase := "https://dl.k8s.io/v1.20.0", Channel := .stable }

/-- A template referencing a field (`KubeletVersion`) that the
configuration does not have. -/
def tmplMissing : List TmplNode :=
  [.text "Version: ", .field "Version", .text " needs ", .field "KubeletVersion"]

/-- A one-package, one-distro build with a single resolver-needing spec. -/
def buildOneDistro : build :=
  { Package := "kubectl", Distros := ["bionic"], Versions := [specStable] }

/-- The version value carried by the kubectl callback event when the
pinned matrix for pin "1.20.0" is walked under `envOk`. -/
def vResolvedPinned : version :=
  { Version := "1.20.0", Revision := "00"
  , DownloadLinkBase := "https://dl.k8s.io/v1.20.0", Channel := .stable
  , GetVersion := some (.specified "1.20.0"), GetDownloadLinkBase := some .release }

/-- The `cri-tools` entry of the pinned build matrix for a concrete pin. -/
def pinnedCriToolsEntry : build :=
  { Package := "cri-tools", Distros := ["bionic"]
  , Versions := [{ GetVersion := some .criToolsLatest, Revision := "00", Channel := .stable }] }

/-- The `kubernetes-cni` entry of the pinned build matrix for a concrete pin. -/
def pinnedCNIEntry : build :=
  { Package := "kubernetes-cni", Distros := ["bionic"]
  , Versions := [{ Version := minimumCNIVersion, Revision := "00", Channel := .stable }] }

/-! ## Helper lemmas about the walker -/

theorem runAll_append_error (env : Env) (f : Callback) (xs : List Combo) :
    ∀ ys e t, runAll env f xs = (.error e, t) →
      runAll env f (xs ++ ys) = (.error e, t) := by
  induction xs with
  | nil => intro ys e t h; simp [runAll] at h
  | cons x xs ih =>
    intro ys e t h
    rcases hst : stepCombo env f x with ⟨r, tx⟩
    cases r with
    | error e2 =>
      simp only [runAll, hst] at h
      simp only [List.cons_append, runAll, hst]
      exact h
    | ok u =>
      cases u
      rcases hrest : runAll env f xs with ⟨r2, t2⟩
      cases r2 with
      | ok u2 =>
        cases u2
        simp only [runAll, hst, hrest, Prod.mk.injEq] at h
        exact absurd h.1 (by simp)
      | error e3 =>
        simp only [runAll, hst, hrest, Prod.mk.injEq, Except.error.injEq] at h
        obtain ⟨rfl, rfl⟩ := h
        have hxy := ih ys e3 t2 hrest
        simp only [List.cons_append, runAll, hst, List.append_eq, hxy]

theorem runAll_append_ok (env : Env) (f : Callback) (xs : List Combo) :
    ∀ ys t, runAll env f xs = (.ok (), t) →
      runAll env f (xs ++ ys) = ((runAll env f ys).1, t ++ (runAll env f ys).2) := by
  induction xs with
  | nil =>
    intro ys t h
    simp only [runAll, Prod.mk.injEq] at h
    obtain ⟨-, rfl⟩ := h
    simp
  | cons x xs ih =>
    intro ys t h
    rcases hst : stepCombo env f x with ⟨r, tx⟩
    cases r with
    | error e2 =>
      simp only [runAll, hst, Prod.mk.injEq] at h
      exact absurd h.1 (by simp)
    | ok u =>
      cases u
      rcases hrest : runAll env f xs with ⟨r2, t2⟩
      cases r2 with
      | error e3 =>
        simp only [runAll, hst, hrest, Prod.mk.injEq] at h
        exact absurd h.1 (by simp)
      | ok u2 =>
        cases u2
        simp only [runAll, hst, hrest, Prod.mk.injEq] at h
        obtain ⟨-, rfl⟩ := h
        have hxy := ih ys t2 hrest
        simp only [List.cons_append, runAll, hst, List.append_eq, hxy]
        simp [List.append_assoc]

theorem walkVersions_eq (env : Env) (f : Callback) (pkg d a : String) :
    ∀ vs, walkVersions env f pkg d a vs
      = runAll env f (vs.map fun v => ⟨pkg, d, a, v⟩) := by
  intro vs
  induction vs with
  | nil => rfl
  | cons v vs ih =>
    simp only [List.map_cons, walkVersions, runAll, ih]

theorem walkDistros_eq (env : Env) (f : Callback) (pkg a : String) (vers : List version) :
    ∀ ds, walkDistros env f pkg a vers ds
      = runAll env f (ds.flatMap fun d => vers.map fun v => ⟨pkg, d, a, v⟩) := by
  intro ds
  induction ds with
  | nil => rfl
  | cons d ds ih =>
    simp only [List.flatMap_cons, walkDistros, walkVersions_eq, ih]
    rcases hv : runAll env f (vers.map fun v => ⟨pkg, d, a, v⟩) with ⟨r, t⟩
    cases r with
    | error e =>
      rw [runAll_append_error env f _ _ e t hv]
    | ok u =>
      cases u
      rw [runAll_append_ok env f _ _ t hv]

theorem walkBuildList_eq (env : Env) (f : Callback) (a : String) :
    ∀ bs, walkBuildList env f a bs
      = runAll env f (bs.flatMap fun b =>
          b.Distros.flatMap fun d => b.Versions.map fun v => ⟨b.Package, d, a, v⟩) := by
  intro bs
  induction bs with
  | nil => rfl
  | cons b bs ih =>
    simp only [List.flatMap_cons, walkBuildList, walkDistros_eq, ih]
    rcases hv : runAll env f
        (b.Distros.flatMap fun d => b.Versions.map fun v => ⟨b.Package, d, a, v⟩) with ⟨r, t⟩
    cases r with
    | error e =>
      rw [runAll_append_error env f _ _ e t hv]
    | ok u =>
      cases u
      rw [runAll_append_ok env f _ _ t hv]

theorem walkBuilds_eq_runAll (env : Env) (f : Callback) (archs : List String)
    (builds : List build) :
    walkBuilds env archs builds f = runAll env f (flatten archs builds) := by
  unfold walkBuilds flatten
  induction archs with
  | nil => rfl
  | cons a rest ih =>
    simp only [List.flatMap_cons, walkArchs, walkBuildList_eq, ih]
    rcases hv : runAll env f
        (builds.flatMap fun b =>
          b.Distros.flatMap fun d => b.Versions.map fun v => ⟨b.Package, d, a, v⟩) with ⟨r, t⟩
    cases r with
    | error e =>
      rw [runAll_append_error env f _ _ e t hv]
    | ok u =>
      cases u
      rw [runAll_append_ok env f _ _ t hv]

theorem populateVersion_countV (env : Env) (v : version) :
    countVersionEvents (populateVersion env v).2 = if needsVersion v then 1 else 0 := by
  unfold populateVersion needsVersion
  cases hb : v.Version.length == 0 with
  | false => cases hg : v.GetVersion <;> simp [countVersionEvents]
  | true =>
    cases hg : v.GetVersion with
    | none => simp [countVersionEvents]
    | some r =>
      cases henv : env.resolveVersion r <;> simp [countVersionEvents, henv]

theorem populateVersion_countL (env : Env) (v : version) :
    countLinkEvents (populateVersion env v).2 = 0 := by
  unfold populateVersion
  cases hb : v.Version.length == 0 with
  | false => cases hg : v.GetVersion <;> simp [countLinkEvents]
  | true =>
    cases hg : v.GetVersion with
    | none => simp [countLinkEvents]
    | some r =>
      cases henv : env.resolveVersion r <;> simp [countLinkEvents, henv]

theorem populateVersion_ok_fields (env : Env) (v v1 : version)
    (h : (populateVersion env v).1 = .ok v1) :
    v1.DownloadLinkBase = v.DownloadLinkBase
      ∧ v1.GetDownloadLinkBase = v.GetDownloadLinkBase
      ∧ v1.Channel = v.Channel := by
  unfold populateVersion at h
  cases hb : v.Version.length == 0 with
  | false =>
    cases hg : v.GetVersion <;> simp [hb, hg] at h <;> subst h <;> exact ⟨rfl, rfl, rfl⟩
  | true =>
    cases hg : v.GetVersion with
    | none => simp [hb, hg] at h; subst h; exact ⟨rfl, rfl, rfl⟩
    | some r =>
      cases henv : env.resolveVersion r with
      | error e => simp [hb, hg, henv] at h
      | ok s => simp [hb, hg, henv] at h; subst h; exact ⟨rfl, rfl, rfl⟩

theorem populateLink_countL (env : Env) (v : version) :
    countLinkEvents (populateLink env v).2 = if needsLink v then 1 else 0 := by
  unfold populateLink needsLink
  cases hb : v.DownloadLinkBase.length == 0 with
  | false => cases hg : v.GetDownloadLinkBase <;> simp [countLinkEvents]
  | true =>
    cases hg : v.GetDownloadLinkBase with
    | none => simp [countLinkEvents]
    | some l =>
      cases henv : env.resolveLink l v <;> simp [countLinkEvents, henv]

theorem populateLink_countV (env : Env) (v : version) :
    countVersionEvents (populateLink env v).2 = 0 := by
  unfold populateLink
  cases hb : v.DownloadLinkBase.length == 0 with
  | false => cases hg : v.GetDownloadLinkBase <;> simp [countVersionEvents]
  | true =>
    cases hg : v.GetDownloadLinkBase with
    | none => simp [countVersionEvents]
    | some l =>
      cases henv : env.resolveLink l v <;> simp [countVersionEvents, henv]

theorem populateLink_ok_channel (env : Env) (v v1 : version)
    (h : (populateLink env v).1 = .ok v1) : v1.Channel = v.Channel := by
  unfold populateLink at h
  cases hb : v.DownloadLinkBase.length == 0 with
  | false =>
    cases hg : v.GetDownloadLinkBase <;> simp [hb, hg] at h <;> subst h <;> rfl
  | true =>
    cases hg : v.GetDownloadLinkBase with
    | none => simp [hb, hg] at h; subst h; rfl
    | some l =>
      cases henv : env.resolveLink l v with
      | error e => simp [hb, hg, henv] at h
      | ok s => simp [hb, hg, henv] at h; subst h; rfl

theorem populateVersion_no_callback (env : Env) (v : version)
    (p d a : String) (v2 : version) :
    Event.callback p d a v2 ∉ (populateVersion env v).2 := by
  unfold populateVersion
  cases hb : v.Version.length == 0 with
  | false => cases hg : v.GetVersion <;> simp
  | true =>
    cases hg : v.GetVersion with
    | none => simp
    | some r => cases henv : env.resolveVersion r <;> simp [henv]

theorem populateLink_no_callback (env : Env) (v : version)
    (p d a : String) (v2 : version) :
    Event.callback p d a v2 ∉ (populateLink env v).2 := by
  unfold populateLink
  cases hb : v.DownloadLinkBase.length == 0 with
  | false => cases hg : v.GetDownloadLinkBase <;> simp
  | true =>
    cases hg : v.GetDownloadLinkBase with
    | none => simp
    | some l => cases henv : env.resolveLink l v <;> simp [henv]

theorem countVersionEvents_append (a b : List Event) :
    countVersionEvents (a ++ b) = countVersionEvents a + countVersionEvents b := by
  simp [countVersionEvents, List.filter_append]

theorem countLinkEvents_append (a b : List Event) :
    countLinkEvents (a ++ b) = countLinkEvents a + countLinkEvents b := by
  simp [countLinkEvents, List.filter_append]

theorem stepCombo_ok_counts (env : Env) (f : Callback) (c : Combo)
    (h : (stepCombo env f c).1 = .ok ()) :
    countVersionEvents (stepCombo env f c).2 = (if needsVersion c.ver then 1 else 0)
      ∧ countLinkEvents (stepCombo env f c).2 = (if needsLink c.ver then 1 else 0) := by
  rcases hpv : populateVersion env c.ver with ⟨rv, t1⟩
  cases rv with
  | error e => simp [stepCombo, hpv] at h
  | ok v1 =>
    rcases hpl : populateLink env v1 with ⟨rl, t2⟩
    cases rl with
    | error e => simp [stepCombo, hpv, hpl] at h
    | ok v2 =>
      have h1 := populateVersion_countV env c.ver
      have h2 := populateVersion_countL env c.ver
      have h3 := populateLink_countL env v1
      have h4 := populateLink_countV env v1
      simp only [hpv] at h1 h2
      simp only [hpl] at h3 h4
      have hfields := populateVersion_ok_fields env c.ver v1 (by simp [hpv])
      have hneeds : needsLink v1 = needsLink c.ver := by
        unfold needsLink
        rw [hfields.1, hfields.2.1]
      cases hf : f c.pkg c.distro c.arch v2 with
      | error e =>
        simp [stepCombo, hpv, hpl, hf] at h
      | ok u =>
        constructor
        · simp only [stepCombo, hpv, hpl, hf, countVersionEvents_append]
          rw [h1, h4]
          simp [countVersionEvents]
        · simp only [stepCombo, hpv, hpl, hf, countLinkEvents_append]
          rw [h2, h3, hneeds]
          simp [countLinkEvents]

theorem stepCombo_callback_channel (env : Env) (f : Callback) (c : Combo)
    (p d a : String) (v : version)
    (h : Event.callback p d a v ∈ (stepCombo env f c).2) :
    v.Channel = c.ver.Channel := by
  rcases hpv : populateVersion env c.ver with ⟨rv, t1⟩
  have hnc1 : Event.callback p d a v ∉ t1 := by
    have hpc := populateVersion_no_callback env c.ver p d a v
    simpa [hpv] using hpc
  cases rv with
  | error e =>
    simp only [stepCombo, hpv] at h
    exact absurd h hnc1
  | ok v1 =>
    rcases hpl : populateLink env v1 with ⟨rl, t2⟩
    have hnc2 : Event.callback p d a v ∉ t2 := by
      have hpc := populateLink_no_callback env v1 p d a v
      simpa [hpl] using hpc
    have hch1 : v1.Channel = c.ver.Channel :=
      (populateVersion_ok_fields env c.ver v1 (by simp [hpv])).2.2
    cases rl with
    | error e =>
      simp only [stepCombo, hpv, hpl] at h
      rcases List.mem_append.mp h with h | h
      · exact absurd h hnc1
      · exact absurd h hnc2
    | ok v2 =>
      have hch2 : v2.Channel = v1.Channel :=
        populateLink_ok_channel env v1 v2 (by simp [hpl])
      cases hf : f c.pkg c.distro c.arch v2 with
      | error e =>
        simp only [stepCombo, hpv, hpl, hf] at h
        rcases List.mem_append.mp h with h | h
        · rcases List.mem_append.mp h with h | h
          · exact absurd h hnc1
          · exact absurd h hnc2
        · simp only [List.mem_singleton, Event.callback.injEq] at h
          obtain ⟨-, -, -, rfl⟩ := h
          exact hch2.trans hch1
      | ok u =>
        simp only [stepCombo, hpv, hpl, hf] at h
        rcases List.mem_append.mp h with h | h
        · rcases List.mem_append.mp h with h | h
          · exact absurd h hnc1
          · exact absurd h hnc2
        · simp only [List.mem_singleton, Event.callback.injEq] at h
          obtain ⟨-, -, -, rfl⟩ := h
          exact hch2.trans hch1

theorem runAll_ok_counts (env : Env) (f : Callback) :
    ∀ cs, (runAll env f cs).1 = .ok () →
      countVersionEvents (runAll env f cs).2
          = (cs.filter fun c => needsVersion c.ver).length
        ∧ countLinkEvents (runAll env f cs).2
          = (cs.filter fun c => needsLink c.ver).length := by
  intro cs
  induction cs with
  | nil => intro h; simp [runAll, countVersionEvents, countLinkEvents]
  | cons c cs ih =>
    intro h
    rcases hst : stepCombo env f c with ⟨r, tx⟩
    cases r with
    | error e => simp [runAll, hst] at h
    | ok u =>
      cases u
      rcases hrest : runAll env f cs with ⟨r2, t2⟩
      cases r2 with
      | error e => simp [runAll, hst, hrest] at h
      | ok u2 =>
        cases u2
        have hcounts := stepCombo_ok_counts env f c (by simp [hst])
        simp only [hst] at hcounts
        have hih := ih (by simp [hrest])
        simp only [hrest] at hih
        simp only [runAll, hst, hrest, countVersionEvents_append, countLinkEvents_append,
          List.filter_cons]
        constructor
        · rw [hcounts.1, hih.1]
          cases hnv : needsVersion c.ver <;> simp [Nat.add_comm]
        · rw [hcounts.2, hih.2]
          cases hnl : needsLink c.ver <;> simp [Nat.add_comm]

theorem runAll_event_mem (env : Env) (f : Callback) :
    ∀ cs ev, ev ∈ (runAll env f cs).2 → ∃ c ∈ cs, ev ∈ (stepCombo env f c).2 := by
  intro cs
  induction cs with
  | nil => intro ev h; simp [runAll] at h
  | cons c cs ih =>
    intro ev h
    rcases hst : stepCombo env f c with ⟨r, tx⟩
    cases r with
    | error e =>
      simp only [runAll, hst] at h
      exact ⟨c, List.mem_cons_self c cs, by simp [hst, h]⟩
    | ok u =>
      cases u
      rcases hrest : runAll env f cs with ⟨r2, t2⟩
      simp only [runAll, hst, hrest] at h
      rcases List.mem_append.mp h with h | h
      · exact ⟨c, List.mem_cons_self c cs, by simp [hst, h]⟩
      · obtain ⟨c2, hc2, hev⟩ := ih ev (by simp [hrest, h])
        exact ⟨c2, List.mem_cons_of_mem c hc2, hev⟩

theorem runAll_first_error (env : Env) (f : Callback) :
    ∀ pre c rest e, (∀ c2 ∈ pre, (stepCombo env f c2).1 = .ok ()) →
      (stepCombo env f c).1 = .error e →
      runAll env f (pre ++ c :: rest)
        = (.error e, (pre.flatMap fun c2 => (stepCombo env f c2).2) ++ (stepCombo env f c).2) := by
  intro pre
  induction pre with
  | nil =>
    intro c rest e _ he
    rcases hst : stepCombo env f c with ⟨r, tx⟩
    simp only [hst] at he
    subst he
    simp [runAll, hst]
  | cons p pre ih =>
    intro c rest e hok he
    rcases hst : stepCombo env f p with ⟨r, tx⟩
    have hpok := hok p (List.mem_cons_self p pre)
    simp only [hst] at hpok
    subst hpok
    have hrec := ih c rest e (fun c2 hc2 => hok c2 (List.mem_cons_of_mem p hc2)) he
    simp only [List.cons_append, runAll, hst, hrec, List.flatMap_cons]
    simp [hst, hrec, List.append_assoc]

theorem mem_flatten (archs : List String) (builds : List build) (c : Combo)
    (h : c ∈ flatten archs builds) : ∃ b ∈ builds, c.ver ∈ b.Versions := by
  simp only [flatten, List.mem_flatMap, List.mem_map] at h
  obtain ⟨a, ha, b, hb, d, hd, v, hv, heq⟩ := h
  subst heq
  exact ⟨b, hb, hv⟩

theorem renderLoop_no_mv (w : World) (c : cfg) :
    ∀ ws a, a ∈ (renderLoop w c ws).2 → isMv a = false := by
  intro ws
  induction ws with
  | nil => intro a ha; simp [renderLoop] at ha
  | cons wk rest ih =>
    intro a ha
    cases ho : w.openFile wk.dst with
    | error e =>
      simp [renderLoop, ho] at ha
      subst ha
      rfl
    | ok u =>
      cases hex : execute w.date c wk.tmpl with
      | error e =>
        simp [renderLoop, ho, hex] at ha
        rcases ha with rfl | rfl <;> rfl
      | ok out =>
        cases hch : w.chmod wk.dst wk.mode with
        | error e =>
          simp [renderLoop, ho, hex, hch] at ha
          rcases ha with rfl | rfl | rfl <;> rfl
        | ok u2 =>
          rcases hrl : renderLoop w c rest with ⟨r, t2⟩
          simp [renderLoop, ho, hex, hch, hrl] at ha
          rcases ha with rfl | rfl | rfl | ha
          · rfl
          · rfl
          · rfl
          · exact ih a (by simp [hrl, ha])

theorem isTemplateError_map (g : String → String) (x : Except Err String) :
    isTemplateError (x.map g) = isTemplateError x := by
  cases x with
  | error e => cases e <;> rfl
  | ok s => rfl

theorem goDropFirstChar_append_notmem (c : Char) :
    ∀ t : List Char, c ∉ t → goDropFirstChar (t ++ [c]) c = t := by
  intro t
  induction t with
  | nil => intro h; simp [goDropFirstChar]
  | cons a t ih =>
    intro h
    have ha : ¬ a = c := fun hc => h (hc ▸ List.mem_cons_self a t)
    simp [goDropFirstChar, ha, ih (fun hc => h (List.mem_cons_of_mem a hc))]

/-! ## Claim theorems -/

/-- C4: the architecture-name mapping of `main` (build.go:518-524) is a
pure total function on all input strings: "arm" maps to "armhf",
"ppc64le" maps to "ppc64el", and every other input string maps to itself;
it is the mapping used for the `DebArch` field of every job
configuration. -/
theorem debArch_total_pure :
    debArch "arm" = "armhf" ∧ debArch "ppc64le" = "ppc64el"
      ∧ (∀ a : String, a ≠ "arm" → a ≠ "ppc64le" → debArch a = a)
      ∧ ∀ pkg distro arch v, (mkCfg pkg distro arch v).DebArch = debArch arch := by
  refine ⟨rfl, rfl, fun a h1 h2 => ?_, fun _ _ _ _ => rfl⟩
  simp [debArch, h1, h2]

/-- Witness for C4 at concrete inputs: "s390x" is neither special case and
maps to itself. -/
theorem debArch_total_pure_witness :
    debArch "s390x" = "s390x" ∧ debArch "arm" = "armhf" :=
  ⟨debArch_total_pure.2.2.1 "s390x" (by decide) (by decide), debArch_total_pure.1⟩

/-- C9: for every job the walk callback builds — whatever package is being
built, including kubelet, kubectl, kubernetes-cni and cri-tools — the
configuration's `Dependencies` field is assigned the kubeadm dependency
set string (build.go:527). -/
theorem dependencies_always_kubeadm :
    ∀ pkg distro arch v, (mkCfg pkg distro arch v).Dependencies = KubeadmDependencies :=
  fun _ _ _ _ => rfl

/-- C3 counterexample: the fetched string "v1.2\n0\n" has a leading v and
a trailing newline, but the clean step removes the FIRST newline (the
interior one), producing "1.20\n" instead of the claimed "1.2\n0" (the
string with exactly the leading v and the trailing newline removed). -/
theorem clean_version_counterexample :
    fetchVersionFromURL (fun _ => .ok "v1.2\n0\n") stableVersionURL = .ok "1.20\n"
      ∧ ("1.20\n" : String) ≠ "1.2\n0" := by
  exact ⟨by decide, by decide⟩

/-- C3 amended: the clean step removes the first occurrence of "v" and
then the first occurrence of "\n"; for a fetched string with a leading
`v` whose ONLY newline is the trailing one, this removes exactly that
leading v and that trailing newline and leaves everything else
unchanged. -/
theorem clean_version_leading_trailing (net : Net) (url : String) (t : List Char)
    (hnl : '\n' ∉ t) (hnet : net url = .ok ⟨'v' :: (t ++ ['\n'])⟩) :
    fetchVersionFromURL net url = .ok ⟨t⟩ := by
  have h1 : stripFirst ⟨'v' :: (t ++ ['\n'])⟩ 'v' = ⟨t ++ ['\n']⟩ := by
    simp [stripFirst, String.toList, goDropFirstChar]
  have h2 : stripFirst ⟨t ++ ['\n']⟩ '\n' = ⟨t⟩ := by
    simp [stripFirst, String.toList, goDropFirstChar_append_notmem '\n' t hnl]
  simp [fetchVersionFromURL, hnet, cleanFetchedVersion, h1, h2]

/-- Witness for C3 amended at the spec's example: "v1.20.0\n" cleans to
"1.20.0". -/
theorem clean_version_leading_trailing_witness :
    fetchVersionFromURL (fun _ => .ok "v1.20.0\n") stableVersionURL = .ok "1.20.0" := by
  have h := clean_version_leading_trailing (fun _ => .ok "v1.20.0\n") stableVersionURL
      "1.20.0".toList (by decide) (by decide)
  exact h

/-- C7: rendering a template that references a configuration field absent
from the supplied job configuration fails with a template error — the
render produces no output with an empty or zero value substituted for the
missing field. -/
theorem render_missing_field_fails (date : String) (c : cfg) (tmpl : List TmplNode)
    (nm : String) (hmem : TmplNode.field nm ∈ tmpl) (hmiss : cfgField c nm = none) :
    isTemplateError (execute date c tmpl) = true := by
  induction tmpl with
  | nil => simp at hmem
  | cons n ns ih =>
    rcases List.mem_cons.mp hmem with h | h
    · subst h
      simp [execute, hmiss, isTemplateError]
    · cases n with
      | text s =>
        simp only [execute, isTemplateError_map]
        exact ih h
      | builtinDate =>
        simp only [execute, isTemplateError_map]
        exact ih h
      | field nm2 =>
        cases hf : cfgField c nm2 with
        | none => simp [execute, hf, isTemplateError]
        | some val =>
          simp only [execute, hf, isTemplateError_map]
          exact ih h

/-- Witness for C7: a concrete template referencing the absent field
"KubeletVersion" fails to render against a full job configuration. -/
theorem render_missing_field_fails_witness :
    isTemplateError
      (execute "Mon, 01 Jan 2024 00:00:00 +0000" cfgTemplate tmplMissing) = true :=
  render_missing_field_fails "Mon, 01 Jan 2024 00:00:00 +0000" cfgTemplate tmplMissing
    "KubeletVersion" (by decide) rfl

/-- C1 counterexample: the stable kubectl spec of `buildTwoDistros` is one
`VersionSpec` consumed by two jobs (distros bionic and xenial) in a
single run; its version resolver is invoked twice — not at most once with
the second job reusing the first resolution. -/
theorem resolver_not_memoized_counterexample :
    countVersionEvents (walkBuilds envOk ["amd64"] [buildTwoDistros] cbOk).2 = 2
      ∧ ¬ countVersionEvents (walkBuilds envOk ["amd64"] [buildTwoDistros] cbOk).2 ≤ 1 := by
  exact ⟨by decide, by decide⟩

/-- C1 amended: resolution is lazy per JOB, not memoized per run: on a
successful walk the number of version-resolver (resp. link-resolver)
invocations equals the number of consumed combinations whose spec still
needed that resolution — every job built from an unresolved spec invokes
the resolver again. -/
theorem resolver_invoked_once_per_job (env : Env) (f : Callback)
    (archs : List String) (builds : List build)
    (h : (walkBuilds env archs builds f).1 = .ok ()) :
    countVersionEvents (walkBuilds env archs builds f).2
        = ((flatten archs builds).filter fun c => needsVersion c.ver).length
      ∧ countLinkEvents (walkBuilds env archs builds f).2
        = ((flatten archs builds).filter fun c => needsLink c.ver).length := by
  rw [walkBuilds_eq_runAll] at h ⊢
  exact runAll_ok_counts env f (flatten archs builds) h

/-- Witness for C1 amended: a one-job walk resolves the version and the
link base exactly once. -/
theorem resolver_invoked_once_per_job_witness :
    countVersionEvents (walkBuilds envOk ["amd64"] [buildOneDistro] cbOk).2 = 1
      ∧ countLinkEvents (walkBuilds envOk ["amd64"] [buildOneDistro] cbOk).2 = 1 := by
  have h := resolver_invoked_once_per_job envOk cbOk ["amd64"] [buildOneDistro] (by decide)
  exact ⟨h.1.trans (by decide), h.2.trans (by decide)⟩

/-- C6: if resolution or the callback fails at some combination of the
walk (all earlier combinations having succeeded), the walker returns
exactly that error, and its trace consists of the earlier combinations'
events followed by the failing combination's events only: no later
combination has its resolvers run or its callback invoked, and no errors
are aggregated. -/
theorem walk_stops_at_first_error (env : Env) (f : Callback)
    (archs : List String) (builds : List build)
    (pre : List Combo) (c : Combo) (rest : List Combo) (e : Err)
    (hsplit : flatten archs builds = pre ++ c :: rest)
    (hok : ∀ c2 ∈ pre, (stepCombo env f c2).1 = .ok ())
    (he : (stepCombo env f c).1 = .error e) :
    walkBuilds env archs builds f
      = (.error e, (pre.flatMap fun c2 => (stepCombo env f c2).2) ++ (stepCombo env f c).2) := by
  rw [walkBuilds_eq_runAll, hsplit]
  exact runAll_first_error env f pre c rest e hok he

/-- Witness for C6: a three-spec build whose second spec's resolver fails;
the walk returns the network error after the first job's callback and the
failing resolution, with no events for the third spec. -/
theorem walk_stops_at_first_error_witness :
    walkBuilds envStableFails ["amd64"] [buildMidFailure] cbOk
      = (.error (.net "Get stable.txt: connection refused"),
         [Event.callback "kubectl" "bionic" "amd64" specLiteral,
          Event.resolveVersion .stableKube]) := by
  have h := walk_stops_at_first_error envStableFails cbOk ["amd64"] [buildMidFailure]
      [comboFirst] comboFailing [comboFirst] (.net "Get stable.txt: connection refused")
      (by decide) (by decide) (by decide)
  exact h.trans (by decide)

/-- C8: when an explicit Kubernetes version pin is supplied (non-empty
`-kube-version`), the build matrix is replaced so that every package
carries exactly one version spec and every spec's channel is stable; and
every job the walker produces from this matrix is a stable-channel job —
no unstable or nightly jobs. -/
theorem pinned_matrix_stable_only (kv rev : String) (ds : List String) (h : kv ≠ "") :
    (∀ b ∈ mainBuilds kv rev ds,
        b.Versions.length = 1 ∧ ∀ v ∈ b.Versions, v.Channel = .stable)
      ∧ ∀ env f archs p d a v,
          Event.callback p d a v ∈ (walkBuilds env archs (mainBuilds kv rev ds) f).2 →
          v.Channel = .stable := by
  have hmain : mainBuilds kv rev ds = buildsPinned kv rev ds := by
    unfold mainBuilds
    rw [if_neg h]
  have hstable : ∀ b ∈ mainBuilds kv rev ds, b.Versions.length = 1
      ∧ ∀ v ∈ b.Versions, v.Channel = .stable := by
    rw [hmain]
    intro b hb
    simp only [buildsPinned, List.mem_cons, List.mem_singleton, List.not_mem_nil,
      or_false] at hb
    rcases hb with rfl | rfl | rfl | rfl | rfl <;>
      exact ⟨rfl, by intro v hv; simp only [List.mem_singleton] at hv; subst hv; rfl⟩
  refine ⟨hstable, ?_⟩
  intro env f archs p d a v hmem
  rw [walkBuilds_eq_runAll] at hmem
  obtain ⟨c, hc, hev⟩ := runAll_event_mem env f (flatten archs (mainBuilds kv rev ds))
    (Event.callback p d a v) hmem
  have hch := stepCombo_callback_channel env f c p d a v hev
  obtain ⟨b, hb, hv⟩ := mem_flatten archs (mainBuilds kv rev ds) c hc
  have := (hstable b hb).2 c.ver hv
  rw [hch, this]

/-- Witness for C8 at pin "1.20.0": the kubernetes-cni entry of the
pinned matrix has one spec, and the kubectl job produced by walking the
pinned matrix is on the stable channel. -/
theorem pinned_matrix_stable_only_witness :
    pinnedCNIEntry.Versions.length = 1 ∧ vResolvedPinned.Channel = ChannelType.stable := by
  refine ⟨?_, ?_⟩
  · exact ((pinned_matrix_stable_only "1.20.0" "00" ["bionic"] (by decide)).1
      pinnedCNIEntry (by decide)).1
  · exact (pinned_matrix_stable_only "1.20.0" "00" ["bionic"] (by decide)).2
      envOk cbOk ["amd64"] "kubectl" "bionic" "amd64" vResolvedPinned (by decide)

/-- C10: in pinned mode the pin is applied only to kubectl, kubelet and
kubeadm (their single spec carries the pinned-version resolver, which
returns the pin without any lookup); the kubernetes-cni entry keeps the
literal minimum CNI version 0.7.5 with no resolver; and the cri-tools
entry still carries the dynamic stable-channel resolver, whose lookup
performs the network fetch of the stable version — so a pinned run is not
free of version-resolution lookups. -/
theorem pinned_matrix_partial_pin (kv rev : String) (ds : List String) :
    (∀ b ∈ buildsPinned kv rev ds,
        ((b.Package = "kubectl" ∨ b.Package = "kubelet" ∨ b.Package = "kubeadm") →
          b.Versions.map (fun v => v.GetVersion) = [some (.specified kv)])
        ∧ (b.Package = "kubernetes-cni" →
            b.Versions.map (fun v => (v.Version, v.GetVersion)) = [(minimumCNIVersion, none)])
        ∧ (b.Package = "cri-tools" →
            b.Versions.map (fun v => v.GetVersion) = [some .criToolsLatest]))
      ∧ (∀ net rdlb, (mkEnv net rdlb).resolveVersion (.specified kv) = .ok kv)
      ∧ (∀ net rdlb e, net stableVersionURL = .error e →
          (mkEnv net rdlb).resolveVersion .criToolsLatest = .error e) := by
  refine ⟨?_, fun net rdlb => rfl, fun net rdlb e he => ?_⟩
  · intro b hb
    simp only [buildsPinned, List.mem_cons, List.mem_singleton, List.not_mem_nil,
      or_false] at hb
    rcases hb with rfl | rfl | rfl | rfl | rfl
    · exact ⟨fun _ => rfl,
        fun hp => absurd (show ("kubectl" : String) = "kubernetes-cni" from hp) (by decide),
        fun hp => absurd (show ("kubectl" : String) = "cri-tools" from hp) (by decide)⟩
    · exact ⟨fun _ => rfl,
        fun hp => absurd (show ("kubelet" : String) = "kubernetes-cni" from hp) (by decide),
        fun hp => absurd (show ("kubelet" : String) = "cri-tools" from hp) (by decide)⟩
    · refine ⟨fun hp => ?_, fun _ => rfl,
        fun hp => absurd (show ("kubernetes-cni" : String) = "cri-tools" from hp) (by decide)⟩
      rcases hp with hp | hp | hp
      · exact absurd (show ("kubernetes-cni" : String) = "kubectl" from hp) (by decide)
      · exact absurd (show ("kubernetes-cni" : String) = "kubelet" from hp) (by decide)
      · exact absurd (show ("kubernetes-cni" : String) = "kubeadm" from hp) (by decide)
    · exact ⟨fun _ => rfl,
        fun hp => absurd (show ("kubeadm" : String) = "kubernetes-cni" from hp) (by decide),
        fun hp => absurd (show ("kubeadm" : String) = "cri-tools" from hp) (by decide)⟩
    · refine ⟨fun hp => ?_,
        fun hp => absurd (show ("cri-tools" : String) = "kubernetes-cni" from hp) (by decide),
        fun _ => rfl⟩
      rcases hp with hp | hp | hp
      · exact absurd (show ("cri-tools" : String) = "kubectl" from hp) (by decide)
      · exact absurd (show ("cri-tools" : String) = "kubelet" from hp) (by decide)
      · exact absurd (show ("cri-tools" : String) = "kubeadm" from hp) (by decide)
  · simp only [mkEnv, getCRIToolsLatestVersion, getStableKubeVersion, fetchVersionFromURL, he]
    rfl

/-- Witness for C10: the cri-tools entry of the pinned matrix carries the
dynamic resolver; the pinned resolver returns the pin even offline; and
with the network down the cri-tools resolution fails with the network
error. -/
theorem pinned_matrix_partial_pin_witness :
    pinnedCriToolsEntry.Versions.map (fun v => v.GetVersion) = [some .criToolsLatest]
      ∧ (mkEnv netOffline "https://dl.k8s.io").resolveVersion (.specified "1.20.0")
          = .ok "1.20.0"
      ∧ (mkEnv netOffline "https://dl.k8s.io").resolveVersion .criToolsLatest
          = .error (.net "connection refused") := by
  refine ⟨?_, ?_, ?_⟩
  · exact ((pinned_matrix_partial_pin "1.20.0" "00" ["bionic"]).1
      pinnedCriToolsEntry (by decide)).2.2 rfl
  · exact (pinned_matrix_partial_pin "1.20.0" "00" ["bionic"]).2.1 netOffline
      "https://dl.k8s.io"
  · exact (pinned_matrix_partial_pin "1.20.0" "00" ["bionic"]).2.2 netOffline
      "https://dl.k8s.io" (.net "connection refused") rfl

/-- C5: if the packaging subprocess fails (non-zero exit or failure to
start, i.e. `runCommand` of `dpkg-buildpackage` returns an error) after
the render phase succeeded, the job returns exactly that error and the
artifact-placement move never runs: no `mv` invocation appears in the
job's action trace. -/
theorem subprocess_failure_no_move (w : World) (kt : Bool) (c : cfg)
    (d rs : String) (works : List Work) (t : List RunAction) (e : Err)
    (h1 : w.tempDir = .ok d)
    (h2 : w.evalSymlinks (srcdirOf c) = .ok rs)
    (h3 : w.walkCollect rs d = .ok works)
    (h4 : renderLoop w c works = (.ok (), t))
    (h5 : w.runCommand d "dpkg-buildpackage" (dpkgArgs c) = .error e) :
    (run w kt c).1 = .error e ∧ (run w kt c).2.any isMv = false := by
  have hbody : runBody w c d
      = (.error e, (.evalSymlinks (srcdirOf c) :: .walk rs :: t)
          ++ [.runCmd d "dpkg-buildpackage" (dpkgArgs c)]) := by
    simp [runBody, h2, h3, h4, h5]
  have hnomv : ∀ a ∈ (.evalSymlinks (srcdirOf c) :: .walk rs :: t)
      ++ [RunAction.runCmd d "dpkg-buildpackage" (dpkgArgs c)], isMv a = false := by
    intro a ha
    rcases List.mem_append.mp ha with ha | ha
    · rcases List.mem_cons.mp ha with rfl | ha
      · rfl
      · rcases List.mem_cons.mp ha with rfl | ha
        · rfl
        · exact renderLoop_no_mv w c works a (by simp [h4, ha])
    · simp only [List.mem_singleton] at ha
      subst ha
      rfl
  constructor
  · cases kt <;> simp [run, h1, hbody]
  · cases kt with
    | false =>
      simp only [run, h1, hbody, Bool.false_eq_true, if_false, List.any_eq_false]
      intro a ha
      rcases List.mem_cons.mp ha with rfl | ha
      · simp [isMv]
      · rcases List.mem_append.mp ha with ha | ha
        · simp [hnomv a ha]
        · simp only [List.mem_singleton] at ha
          subst ha
          simp [isMv]
    | true =>
      simp only [run, h1, hbody, if_true, List.any_eq_false]
      intro a ha
      rcases List.mem_cons.mp ha with rfl | ha
      · simp [isMv]
      · simp [hnomv a ha]

/-- Witness for C5: with a world whose `dpkg-buildpackage` invocation
fails and everything else succeeds, the concrete stable kubectl job
returns the process error and performs no move. -/
theorem subprocess_failure_no_move_witness :
    (run worldDpkgFails false cfgJob).1 = .error (.proc "exit status 1")
      ∧ (run worldDpkgFails false cfgJob).2.any isMv = false := by
  have h := subprocess_failure_no_move worldDpkgFails false cfgJob "/tmp/debs123"
      (srcdirOf cfgJob) [] [] (.proc "exit status 1") rfl rfl rfl rfl rfl
  exact h

/-- C2 (evidence for the code bug): the source discards the error of
`os.MkdirAll(dstPath, 0777)` (build.go:212).  In a world where creating
the output directory `bin/<channel>/<distro>` fails and every other
operation succeeds, the job does NOT abort: it continues to the file-move
step (the trace contains the `mv` invocation) and even returns success —
instead of aborting with the directory-creation error as the claim
states. -/
theorem mkdir_failure_not_aborting :
    worldMkdirFails.mkdirAll (binPath cfgJob) = .error (.io "mkdir bin: permission denied")
      ∧ (run worldMkdirFails false cfgJob).1 = .ok ()
      ∧ (run worldMkdirFails false cfgJob).2.any isMv = true := by
  exact ⟨rfl, by decide, by decide⟩
